import Mathlib

/-!
Verification development for the AI resource cost manager.

The repository's numeric code runs on JavaScript numbers; we embed the
arithmetic over `ℚ` with JavaScript's `Math.round x = ⌊x + 1/2⌋` made
explicit.  ISO date strings (`YYYY-MM-DD`) are represented by their parsed
calendar triple, and `Date` comparison (epoch order) becomes lexicographic
order on the triples.  Values produced by the environment (`new Date()`,
`Date.now()`, `Math.random()`, `generateId()`) are passed in as explicit
parameters.
-/

namespace CostTracker

/-- JavaScript `Math.round`: round half up, `⌊q + 1/2⌋`. -/
def jsRound (q : ℚ) : ℤ := ⌊q + 1 / 2⌋

/-- `CostCalculator.roundCost`: `Math.round(value * 100) / 100`. -/
def roundCost (value : ℚ) : ℚ :=
  (jsRound (value * 100) : ℚ) / 100

/-- A calendar date (the parse of an ISO `YYYY-MM-DD` string); `month` and
`day` are 1-based. -/
structure CDate where
  year : ℤ
  month : ℕ
  day : ℕ
deriving DecidableEq

/-- JavaScript `Date` comparison (`<=` on epoch milliseconds) restricted to
calendar dates: lexicographic on (year, month, day). -/
def CDate.le (a b : CDate) : Bool :=
  if a.year = b.year then
    (if a.month = b.month then decide (a.day ≤ b.day) else decide (a.month < b.month))
  else decide (a.year < b.year)

/-- Gregorian leap-year rule (as implemented by the JS `Date` month math). -/
def isLeapYear (y : ℤ) : Bool :=
  decide (y % 4 = 0) && (decide (y % 100 ≠ 0) || decide (y % 400 = 0))

/-- Number of days of month `m` (1-based) of year `y`; this is the day
component of `new Date(y, m, 0)` (`getLastDayOfMonth`). -/
def daysInMonth (y : ℤ) (m : ℕ) : ℕ :=
  match m with
  | 2 => if isLeapYear y then 29 else 28
  | 4 => 30
  | 6 => 30
  | 9 => 30
  | 11 => 30
  | _ => 31

/-- `String(n).padStart(2, '0')` for the month numbers used in trend keys. -/
def pad2 (n : ℕ) : String :=
  if n < 10 then "0" ++ toString n else toString n

/-- The year/month of the clock value `new Date()`; `month0` is the 0-based
`getMonth()` value. -/
structure YM where
  year : ℤ
  month0 : ℤ
deriving DecidableEq

/-- Absolute month index `year*12 + getMonth()`; `new Date(y, m - i, 1)`
normalizes month overflow exactly by floored div/mod on this index. -/
def absMonth (now : YM) : ℤ := now.year * 12 + now.month0

/-- Year of the (possibly overflowed) absolute month index `t`. -/
def monthYear (t : ℤ) : ℤ := t.fdiv 12

/-- 0-based month of the absolute month index `t`. -/
def monthIdx0 (t : ℤ) : ℕ := (t.fmod 12).toNat

/-- Trend key `` `${year}-${String(month + 1).padStart(2, '0')}` ``. -/
def monthKeyStr (t : ℤ) : String :=
  toString (monthYear t) ++ "-" ++ pad2 (monthIdx0 t + 1)

/-- `getFirstDayOfMonth` of the month with absolute index `t`. -/
def monthFirstDay (t : ℤ) : CDate :=
  { year := monthYear t, month := monthIdx0 t + 1, day := 1 }

/-- `getLastDayOfMonth` of the month with absolute index `t`
(`new Date(y, m + 1, 0)`). -/
def monthLastDay (t : ℤ) : CDate :=
  { year := monthYear t, month := monthIdx0 t + 1,
    day := daysInMonth (monthYear t) (monthIdx0 t + 1) }

/-- `BillingMode = 'daily' | 'monthly' | 'yearly' | 'one-time'`. -/
inductive BillingMode where
  | daily
  | monthly
  | yearly
  | oneTime
deriving DecidableEq

/-- `CostSourceType = 'api' | 'subscription' | 'hardware' | 'one-time'`. -/
inductive CostSourceType where
  | api
  | subscription
  | hardware
  | oneTime
deriving DecidableEq

/-- The string value of a `CostSourceType`, used as the `costByType` key. -/
def CostSourceType.key : CostSourceType → String
  | .api => "api"
  | .subscription => "subscription"
  | .hardware => "hardware"
  | .oneTime => "one-time"

/-- The `CostSource` record (`src/types/index.ts`); optional ISO date strings
are represented by their parsed calendar date. -/
structure CostSource where
  id : String
  name : String
  type : CostSourceType
  provider : Option String
  billingMode : BillingMode
  cost : ℚ
  currency : String
  startDate : Option CDate
  endDate : Option CDate
  isEnabled : Bool
  description : Option String
  createdAt : String
  updatedAt : String
deriving DecidableEq

/-- `CostCalculator.normalizeToDaily`: `daily` and `one-time` return the cost
unchanged; `monthly` divides by `DAYS_IN_MONTH = 30` and rounds; `yearly`
divides by `DAYS_IN_YEAR = 365` and rounds. -/
def normalizeToDaily (cost : ℚ) (mode : BillingMode) : ℚ :=
  match mode with
  | .daily => cost
  | .monthly => roundCost (cost / 30)
  | .yearly => roundCost (cost / 365)
  | .oneTime => cost

/-- `CostCalculator.normalizeToMonthly`. -/
def normalizeToMonthly (cost : ℚ) (mode : BillingMode) : ℚ :=
  roundCost (normalizeToDaily cost mode * 30)

/-- `CostCalculator.normalizeToYearly`. -/
def normalizeToYearly (cost : ℚ) (mode : BillingMode) : ℚ :=
  roundCost (normalizeToDaily cost mode * 365)

/-- One entry of the monthly trend. -/
structure MonthlyTrend where
  month : String
  cost : ℚ
deriving DecidableEq

/-- The bucket key `source.provider || 'custom'` (the empty string is falsy
in JS, so it also falls back to `"custom"`). -/
def providerKey (s : CostSource) : String :=
  match s.provider with
  | none => "custom"
  | some p => if p = "" then "custom" else p

/-- Daily-normalized cost of one source. -/
def dailyCost (s : CostSource) : ℚ := normalizeToDaily s.cost s.billingMode

/-- `record[k] = (record[k] || 0) + v` on a JS object: update the (unique)
binding in place, or append a new binding at the end. -/
def upsert (k : String) (v : ℚ) : List (String × ℚ) → List (String × ℚ)
  | [] => [(k, v)]
  | (k', v') :: rest =>
      if k' = k then (k', v' + v) :: rest else (k', v') :: upsert k v rest

/-- The trend inclusion test of `calculateMonthlyTrend`:
`(!startDate || monthEnd >= startDate) && (!endDate || monthStart <= endDate)`. -/
def qualifiesB (s : CostSource) (mStart mEnd : CDate) : Bool :=
  (match s.startDate with
    | none => true
    | some sd => CDate.le sd mEnd) &&
  (match s.endDate with
    | none => true
    | some ed => CDate.le mStart ed)

/-- One iteration of the `calculateMonthlyTrend` loop: the entry for the
month `i` months before `now`. -/
def monthEntry (sources : List CostSource) (now : YM) (i : ℕ) : MonthlyTrend :=
  let t := absMonth now - i
  let mStart := monthFirstDay t
  let mEnd := monthLastDay t
  { month := monthKeyStr t,
    cost := roundCost (sources.foldl
      (fun acc s =>
        if qualifiesB s mStart mEnd then acc + normalizeToMonthly s.cost s.billingMode
        else acc) 0) }

/-- `CostCalculator.calculateMonthlyTrend(sources, months)`: the loop runs
`i = months - 1, …, 0`, pushing in that order, so position `j` holds the
entry for `i = months - 1 - j`. -/
def calculateMonthlyTrend (sources : List CostSource) (months : ℕ) (now : YM) :
    List MonthlyTrend :=
  (List.range months).map (fun j => monthEntry sources now (months - 1 - j))

/-- The `CostSummary` record; JS objects keyed by strings are represented as
insertion-ordered association lists with unique keys. -/
structure CostSummary where
  totalDailyCost : ℚ
  totalMonthlyCost : ℚ
  totalYearlyCost : ℚ
  enabledSourcesCount : ℕ
  totalSourcesCount : ℕ
  costByProvider : List (String × ℚ)
  costByType : List (String × ℚ)
  monthlyTrend : List MonthlyTrend
deriving DecidableEq

/-- `CostCalculator.calculateSummary`: filters to enabled sources, sums the
unrounded daily normalization, buckets by provider and type in one pass, and
derives the monthly/yearly totals from the unrounded daily sum. -/
def calculateSummary (sources : List CostSource) (now : YM) : CostSummary :=
  let enabled := sources.filter (fun s => s.isEnabled)
  let totalDaily := enabled.foldl
    (fun sum s => sum + normalizeToDaily s.cost s.billingMode) 0
  let maps := enabled.foldl
    (fun (m : List (String × ℚ) × List (String × ℚ)) s =>
      (upsert (providerKey s) (dailyCost s) m.1,
       upsert s.type.key (dailyCost s) m.2))
    ([], [])
  { totalDailyCost := roundCost totalDaily,
    totalMonthlyCost := roundCost (totalDaily * 30),
    totalYearlyCost := roundCost (totalDaily * 365),
    enabledSourcesCount := enabled.length,
    totalSourcesCount := sources.length,
    costByProvider := maps.1,
    costByType := maps.2,
    monthlyTrend := calculateMonthlyTrend enabled 6 now }

/-- Per-model rate card (`ModelPricing`). -/
structure ModelPricing where
  modelId : String
  modelName : String
  provider : String
  inputPricePerMillion : ℚ
  outputPricePerMillion : ℚ
  currency : String
deriving DecidableEq

/-- `CostCalculator.calculateTokenCost`. -/
def calculateTokenCost (inputTokens outputTokens : ℚ) (pricing : ModelPricing) : ℚ :=
  roundCost (inputTokens / 1000000 * pricing.inputPricePerMillion +
    outputTokens / 1000000 * pricing.outputPricePerMillion)

/-- The `NormalizedUsage` record (`src/lib/provider/types.ts`); the optional
`sessionId`/`projectId` fields play no role in the verified code. -/
structure NormalizedUsage where
  id : String
  modelId : String
  modelName : String
  provider : String
  inputTokens : ℚ
  outputTokens : ℚ
  totalTokens : ℚ
  cost : ℚ
  currency : String
  date : String
deriving DecidableEq

/-- `CostCalculator.calculateBatchCosts`: one pass accumulating the running
total and the per-model buckets; a usage whose `modelId` has no pricing entry
contributes `0`; the total alone is rounded at the end. The `Map` argument is
embedded as its lookup function. -/
def calculateBatchCosts (usages : List NormalizedUsage)
    (pricingMap : String → Option ModelPricing) : ℚ × List (String × ℚ) :=
  let r := usages.foldl
    (fun (acc : ℚ × List (String × ℚ)) usage =>
      let cost := match pricingMap usage.modelId with
        | some pricing => calculateTokenCost usage.inputTokens usage.outputTokens pricing
        | none => 0
      (acc.1 + cost, upsert usage.modelName cost acc.2))
    (0, [])
  (roundCost r.1, r.2)

/-- Result of `calculateAmortizedCost`. -/
structure AmortizedCost where
  monthlyCost : ℚ
  totalMonths : ℤ
  effectiveMonths : ℤ
deriving DecidableEq

/-- `CostCalculator.calculateAmortizedCost`: the end date defaults to the
clock value `now` when absent; `getMonth()` is 0-based but only month
differences occur, so the 1-based `CDate.month` gives the same value. -/
def calculateAmortizedCost (totalCost : ℚ) (start : CDate) (endDate : Option CDate)
    (months : ℤ) (now : CDate) : AmortizedCost :=
  let e := endDate.getD now
  let totalMonths := max 1 ((e.year - start.year) * 12 +
    ((e.month : ℤ) - (start.month : ℤ)) + 1)
  let effectiveMonths := min totalMonths months
  { monthlyCost := roundCost (totalCost / (effectiveMonths : ℚ)),
    totalMonths := totalMonths,
    effectiveMonths := effectiveMonths }

/-- The fields of `addSource`'s argument (`Omit<CostSource, 'id' | 'createdAt'
| 'updatedAt'>`). -/
structure CostSourceData where
  name : String
  type : CostSourceType
  provider : Option String
  billingMode : BillingMode
  cost : ℚ
  currency : String
  startDate : Option CDate
  endDate : Option CDate
  isEnabled : Bool
  description : Option String
deriving DecidableEq

/-- The record `addSource` appends: the data plus the generated id and the
`createdAt = updatedAt = now` stamps. -/
def CostSourceData.toSource (d : CostSourceData) (id now : String) : CostSource :=
  { id := id, name := d.name, type := d.type, provider := d.provider,
    billingMode := d.billingMode, cost := d.cost, currency := d.currency,
    startDate := d.startDate, endDate := d.endDate, isEnabled := d.isEnabled,
    description := d.description, createdAt := now, updatedAt := now }

/-- Store `addSource`: appends the new record; the generated id and clock are
passed in explicitly (`generateId()`, `new Date().toISOString()`). -/
def addSource (sources : List CostSource) (d : CostSourceData) (newId now : String) :
    String × List CostSource :=
  (newId, sources ++ [d.toSource newId now])

/-- `Partial<CostSource>`: each field is present (`some`) or absent (`none`);
for the fields that are themselves optional the carried value is again an
`Option`. An `updatedAt` member would be overwritten by the merge and is
omitted. -/
structure CostSourceUpdate where
  id : Option String := none
  name : Option String := none
  type : Option CostSourceType := none
  provider : Option (Option String) := none
  billingMode : Option BillingMode := none
  cost : Option ℚ := none
  currency : Option String := none
  startDate : Option (Option CDate) := none
  endDate : Option (Option CDate) := none
  isEnabled : Option Bool := none
  description : Option (Option String) := none
  createdAt : Option String := none
deriving DecidableEq

/-- The spread `{ ...source, ...updates, updatedAt: now }`: every field
present in `updates` overwrites the record's field — including `id` — and
`updatedAt` is stamped last. -/
def mergeUpdate (s : CostSource) (u : CostSourceUpdate) (now : String) : CostSource :=
  { id := u.id.getD s.id, name := u.name.getD s.name, type := u.type.getD s.type,
    provider := u.provider.getD s.provider,
    billingMode := u.billingMode.getD s.billingMode, cost := u.cost.getD s.cost,
    currency := u.currency.getD s.currency,
    startDate := u.startDate.getD s.startDate, endDate := u.endDate.getD s.endDate,
    isEnabled := u.isEnabled.getD s.isEnabled,
    description := u.description.getD s.description,
    createdAt := u.createdAt.getD s.createdAt, updatedAt := now }

/-- Store `updateSource`: maps the merge over the collection, touching only
records whose id matches. -/
def updateSource (sources : List CostSource) (id : String) (u : CostSourceUpdate)
    (now : String) : List CostSource :=
  sources.map (fun s => if s.id = id then mergeUpdate s u now else s)

/-- Store `getSourceById` (`Array.prototype.find`). -/
def getSourceById (sources : List CostSource) (id : String) : Option CostSource :=
  sources.find? (fun s => s.id == id)

/-- Store `duplicateSource`: `null` when the id is not found; otherwise
`addSource` with every content field copied, `isEnabled` forced to `false`,
and the name suffixed with the duplicate marker `" (副本)"`. -/
def duplicateSource (sources : List CostSource) (id newId now : String) :
    Option (String × List CostSource) :=
  match getSourceById sources id with
  | none => none
  | some src =>
      some (addSource sources
        { name := src.name ++ " (副本)", type := src.type, provider := src.provider,
          billingMode := src.billingMode, cost := src.cost, currency := src.currency,
          startDate := src.startDate, endDate := src.endDate, isEnabled := false,
          description := src.description } newId now)

/-- A raw item of the OpenCode `/usage` response body. -/
structure RawUsageItem where
  id : String
  model_id : String
  model_name : String
  input_tokens : ℚ
  output_tokens : ℚ
  cost : ℚ
  currency : String
  date : String
deriving DecidableEq

/-- The per-item mapping of `OpenCodeProvider.fetchUsage`'s success path:
`item.id || generateId()` and `item.currency || 'USD'` fall back on the empty
string (the only falsy string), and `totalTokens` is computed as
`input_tokens + output_tokens`. -/
def normalizeUsageItem (genId : String) (item : RawUsageItem) : NormalizedUsage :=
  { id := if item.id = "" then genId else item.id,
    modelId := item.model_id, modelName := item.model_name, provider := "opencode",
    inputTokens := item.input_tokens, outputTokens := item.output_tokens,
    totalTokens := item.input_tokens + item.output_tokens,
    cost := item.cost,
    currency := if item.currency = "" then "USD" else item.currency,
    date := item.date }

/-- `OpenCodeProvider.fetchUsage` success path over the parsed response
items; `genIds` supplies the fresh id generated for each position. -/
def fetchUsageSuccess (genIds : ℕ → String) (items : List RawUsageItem) :
    List NormalizedUsage :=
  items.enum.map (fun p => normalizeUsageItem (genIds p.1) p.2)

/-- `OpenCodeProvider.getMockModels`. -/
def getMockModels : List ModelPricing :=
  [{ modelId := "minimax-m2.1", modelName := "MiniMax-M2.1", provider := "opencode",
     inputPricePerMillion := 1/2, outputPricePerMillion := 3/2, currency := "USD" },
   { modelId := "minimax-m2", modelName := "MiniMax-M2", provider := "opencode",
     inputPricePerMillion := 2/5, outputPricePerMillion := 6/5, currency := "USD" }]

/-- `OpenCodeProvider.calculateCost`: mock rate-card lookup; unknown model
yields `0`; note this method does not round. -/
def openCodeCalculateCost (inputTokens outputTokens : ℚ) (modelId : String) : ℚ :=
  match getMockModels.find? (fun m => m.modelId == modelId) with
  | none => 0
  | some m => inputTokens / 1000000 * m.inputPricePerMillion +
      outputTokens / 1000000 * m.outputPricePerMillion

/-- The environment draws consumed by one mock usage record: the generated
id and the four `Math.floor(Math.random() * …)` results (already floored,
so natural numbers). -/
structure MockRand where
  gid : String
  dIn : ℕ
  dOut : ℕ
  cIn : ℕ
  cOut : ℕ
deriving DecidableEq

/-- One record of `OpenCodeProvider.getMockUsageData`: token counts are
`draw + 1000` / `draw + 500`, the cost re-draws fresh randoms, and
`totalTokens` is set to the literal `0`. -/
def mockUsageRecord (date : String) (model : ModelPricing) (r : MockRand) :
    NormalizedUsage :=
  { id := r.gid, modelId := model.modelId, modelName := model.modelName,
    provider := "opencode",
    inputTokens := (r.dIn : ℚ) + 1000, outputTokens := (r.dOut : ℚ) + 500,
    totalTokens := 0,
    cost := openCodeCalculateCost ((r.cIn : ℚ) + 1000) ((r.cOut : ℚ) + 500)
      model.modelId,
    currency := "USD", date := date }

/-- `OpenCodeProvider.getMockUsageData` (the fallback path of `fetchUsage`):
one record per day and mock model; the day enumeration and the random draws
come from the environment and are passed in. -/
def getMockUsageData (days : List String) (rand : String → String → MockRand) :
    List NormalizedUsage :=
  days.flatMap (fun date =>
    getMockModels.map (fun model => mockUsageRecord date model (rand date model.modelId)))

/-- Unrounded sum of the daily-normalized costs of a source list (the
`reduce` accumulator of `calculateSummary` before rounding). -/
def sumDaily (l : List CostSource) : ℚ :=
  (l.map (fun s => normalizeToDaily s.cost s.billingMode)).sum

/-- Sum of all values of a JS-object-as-association-list. -/
def sumValues (m : List (String × ℚ)) : ℚ := (m.map Prod.snd).sum

/-- `record[k] || 0`: lookup with default `0`. -/
def lookupZero (k : String) : List (String × ℚ) → ℚ
  | [] => 0
  | (k', v) :: rest => if k = k' then v else lookupZero k rest

/-- Contribution of one usage record to `calculateBatchCosts`: `0` when its
`modelId` has no pricing entry, otherwise its token cost. -/
def batchContribution (pricingMap : String → Option ModelPricing)
    (u : NormalizedUsage) : ℚ :=
  match pricingMap u.modelId with
  | some pricing => calculateTokenCost u.inputTokens u.outputTokens pricing
  | none => 0

lemma foldl_add_map {α : Type} (f : α → ℚ) :
    ∀ (l : List α) (a : ℚ), l.foldl (fun acc x => acc + f x) a = a + (l.map f).sum := by
  intro l
  induction l with
  | nil => intro a; simp
  | cons x xs ih => intro a; simp [ih]; ring

lemma foldl_add_if {α : Type} (p : α → Bool) (f : α → ℚ) :
    ∀ (l : List α) (a : ℚ),
      l.foldl (fun acc x => if p x then acc + f x else acc) a =
        a + ((l.filter p).map f).sum := by
  intro l
  induction l with
  | nil => intro a; simp
  | cons x xs ih =>
      intro a
      cases hp : p x
      · simp [List.filter_cons, hp, ih]
      · simp [List.filter_cons, hp, ih]; ring

lemma sumValues_upsert (k : String) (v : ℚ) :
    ∀ m, sumValues (upsert k v m) = sumValues m + v := by
  intro m
  induction m with
  | nil => simp [upsert, sumValues]
  | cons e rest ih =>
      obtain ⟨k', v'⟩ := e
      by_cases h : k' = k
      · simp [upsert, h, sumValues]; ring
      · simp [upsert, h, sumValues] at ih ⊢
        rw [ih]; ring

lemma lookupZero_upsert (k : String) (v : ℚ) (q : String) :
    ∀ m, lookupZero q (upsert k v m) = lookupZero q m + (if q = k then v else 0) := by
  intro m
  induction m with
  | nil => simp [upsert, lookupZero]
  | cons e rest ih =>
      obtain ⟨k', v'⟩ := e
      by_cases h : k' = k
      · subst h
        by_cases hq : q = k' <;> simp [upsert, lookupZero, hq]
      · by_cases hq : q = k'
        · have hqk : ¬ q = k := by rw [hq]; exact h
          simp [upsert, lookupZero, h, hq, hqk]
        · simp [upsert, lookupZero, h, hq, ih]

lemma foldl_pair {α β γ : Type} (f : β → α → β) (g : γ → α → γ) :
    ∀ (l : List α) (b : β) (c : γ),
      l.foldl (fun p x => (f p.1 x, g p.2 x)) (b, c) = (l.foldl f b, l.foldl g c) := by
  intro l
  induction l with
  | nil => intro b c; rfl
  | cons x xs ih => intro b c; simp [ih]

lemma foldl_upsert_sumValues {α : Type} (keyf : α → String) (valf : α → ℚ) :
    ∀ (l : List α) (init : List (String × ℚ)),
      sumValues (l.foldl (fun m x => upsert (keyf x) (valf x) m) init) =
        sumValues init + (l.map valf).sum := by
  intro l
  induction l with
  | nil => intro init; simp
  | cons x xs ih =>
      intro init
      rw [List.foldl_cons, ih, sumValues_upsert]
      simp; ring

lemma foldl_upsert_lookupZero {α : Type} (keyf : α → String) (valf : α → ℚ)
    (name : String) :
    ∀ (l : List α) (init : List (String × ℚ)),
      lookupZero name (l.foldl (fun m x => upsert (keyf x) (valf x) m) init) =
        lookupZero name init +
          ((l.filter (fun x => keyf x == name)).map valf).sum := by
  intro l
  induction l with
  | nil => intro init; simp
  | cons x xs ih =>
      intro init
      rw [List.foldl_cons, ih, lookupZero_upsert]
      by_cases h : keyf x = name
      · simp [List.filter_cons, h, beq_iff_eq]; ring
      · have h' : ¬ name = keyf x := fun e => h e.symm
        simp [List.filter_cons, h, h', beq_iff_eq]

lemma summary_totalDaily (sources : List CostSource) (now : YM) :
    (calculateSummary sources now).totalDailyCost =
      roundCost (sumDaily (sources.filter (fun s => s.isEnabled))) := by
  simp [calculateSummary, sumDaily, foldl_add_map]

/-- A concrete daily-billed enabled source used in concrete evaluations. -/
def srcDaily (c : ℚ) : CostSource :=
  { id := "s1", name := "s1", type := .api, provider := none,
    billingMode := .daily, cost := c, currency := "USD", startDate := none,
    endDate := none, isEnabled := true, description := none,
    createdAt := "t", updatedAt := "t" }

/-- A concrete clock value (October 2025; `getMonth() = 9`). -/
def now0 : YM := { year := 2025, month0 := 9 }

/-- A concrete stored record used in store-operation evaluations. -/
def recA : CostSource :=
  { id := "a", name := "n", type := .api, provider := none,
    billingMode := .daily, cost := 1, currency := "USD", startDate := none,
    endDate := none, isEnabled := true, description := none,
    createdAt := "t", updatedAt := "t" }

/-- C1 (counterexample): with a single enabled daily source costing 0.015,
the summary's monthly total is `round(0.015 × 30) = 0.45`, while the claim's
formula `round(totalDailyCost × 30) = round(0.02 × 30)` gives `0.60`: the
monthly total is not derived from the rounded daily figure. -/
theorem totalMonthly_not_from_rounded_daily :
    (calculateSummary [srcDaily (3/200)] now0).totalMonthlyCost = 9/20 ∧
    roundCost ((calculateSummary [srcDaily (3/200)] now0).totalDailyCost * 30) = 3/5 ∧
    (9/20 : ℚ) ≠ 3/5 := by
  refine ⟨?_, ?_, by norm_num⟩ <;>
    norm_num [calculateSummary, srcDaily, normalizeToDaily, roundCost, jsRound]

/-- C1 (amended): the three summary totals all derive from the **unrounded**
daily sum of the enabled sources: `totalDailyCost = round(Σ)`,
`totalMonthlyCost = round(Σ × 30)`, `totalYearlyCost = round(Σ × 365)`. -/
theorem summary_totals_from_unrounded_daily (sources : List CostSource) (now : YM) :
    (calculateSummary sources now).totalDailyCost =
      roundCost (sumDaily (sources.filter (fun s => s.isEnabled))) ∧
    (calculateSummary sources now).totalMonthlyCost =
      roundCost (sumDaily (sources.filter (fun s => s.isEnabled)) * 30) ∧
    (calculateSummary sources now).totalYearlyCost =
      roundCost (sumDaily (sources.filter (fun s => s.isEnabled)) * 365) := by
  refine ⟨?_, ?_, ?_⟩ <;> simp [calculateSummary, sumDaily, foldl_add_map]

/-- C2 (counterexample): `normalizeToDaily(0.015, 'daily')` returns 0.015
unchanged, which is not rounded to 2 decimal places (rounding would give
0.02): the result is not rounded in every case. -/
theorem normalizeToDaily_daily_not_rounded :
    normalizeToDaily (3/200) BillingMode.daily = 3/200 ∧
    roundCost (3/200) = 1/50 ∧ (3/200 : ℚ) ≠ 1/50 :=
  ⟨rfl, by norm_num [roundCost, jsRound], by norm_num⟩

/-- C2 (amended): `normalizeToDaily` returns the cost **unchanged (without
rounding)** for `daily` and `one-time`, and the rounded quotients
`round(cost/30)` and `round(cost/365)` for `monthly` and `yearly`. -/
theorem normalizeToDaily_cases (cost : ℚ) :
    normalizeToDaily cost BillingMode.daily = cost ∧
    normalizeToDaily cost BillingMode.oneTime = cost ∧
    normalizeToDaily cost BillingMode.monthly = roundCost (cost / 30) ∧
    normalizeToDaily cost BillingMode.yearly = roundCost (cost / 365) :=
  ⟨rfl, rfl, rfl, rfl⟩

/-- C4 (counterexample): `updateSource` spreads the partial update over the
record, so a partial update containing an `id` field overwrites the matched
record's id: updating record `"a"` with `{id: "b"}` leaves a record whose id
is `"b"`, not `"a"`. -/
theorem updateSource_can_overwrite_id :
    (updateSource [recA] "a" { id := some "b" } "t2").map CostSource.id = ["b"] ∧
    ("b" : String) ≠ "a" := by
  constructor
  · simp [updateSource, recA, mergeUpdate]
  · decide

/-- C4 (amended): `updateSource` preserves every record's id **provided the
partial update does not itself contain an `id` field**; the match and
non-match cases alike keep the stored ids. -/
theorem updateSource_preserves_ids (sources : List CostSource) (id : String)
    (u : CostSourceUpdate) (now : String) (h : u.id = none) :
    (updateSource sources id u now).map CostSource.id =
      sources.map CostSource.id := by
  induction sources with
  | nil => rfl
  | cons s ss ih =>
      simp only [updateSource, List.map_cons] at ih ⊢
      refine congrArg₂ List.cons ?_ ih
      by_cases hs : s.id = id <;> simp [hs, mergeUpdate, h]

/-- Witness for the amended C4 at a concrete store and empty update. -/
theorem updateSource_preserves_ids_witness :
    (updateSource [recA] "a" {} "t2").map CostSource.id =
      [recA].map CostSource.id :=
  updateSource_preserves_ids [recA] "a" {} "t2" rfl

/-- C5 (counterexample): appending an enabled daily source costing 0.004 to
the empty list leaves `totalDailyCost` at 0 (its rounding), an increase of 0
rather than of the source's normalized daily cost 0.004. -/
theorem totalDailyCost_increase_not_exact :
    (calculateSummary [srcDaily (1/250)] now0).totalDailyCost -
      (calculateSummary ([] : List CostSource) now0).totalDailyCost = 0 ∧
    normalizeToDaily (1/250) BillingMode.daily = 1/250 ∧
    (0 : ℚ) ≠ 1/250 := by
  refine ⟨?_, rfl, by norm_num⟩
  norm_num [calculateSummary, srcDaily, normalizeToDaily, roundCost, jsRound]

/-- C5 (amended): appending an enabled source increases the **unrounded**
daily sum by exactly its normalized daily cost; the reported `totalDailyCost`
is the rounding of that increased sum. -/
theorem append_enabled_source_daily_sum (S : List CostSource) (s : CostSource)
    (now : YM) (h : s.isEnabled = true) :
    sumDaily ((S ++ [s]).filter (fun x => x.isEnabled)) =
      sumDaily (S.filter (fun x => x.isEnabled)) +
        normalizeToDaily s.cost s.billingMode ∧
    (calculateSummary (S ++ [s]) now).totalDailyCost =
      roundCost (sumDaily (S.filter (fun x => x.isEnabled)) +
        normalizeToDaily s.cost s.billingMode) := by
  have hsum : sumDaily ((S ++ [s]).filter (fun x => x.isEnabled)) =
      sumDaily (S.filter (fun x => x.isEnabled)) +
        normalizeToDaily s.cost s.billingMode := by
    simp [sumDaily, List.filter_append, h]
  exact ⟨hsum, by rw [summary_totalDaily, hsum]⟩

/-- Witness for the amended C5 at a concrete list and source. -/
theorem append_enabled_source_daily_sum_witness :
    sumDaily (([] ++ [srcDaily 1]).filter (fun x => x.isEnabled)) =
      sumDaily (([] : List CostSource).filter (fun x => x.isEnabled)) +
        normalizeToDaily (srcDaily 1).cost (srcDaily 1).billingMode ∧
    (calculateSummary ([] ++ [srcDaily 1]) now0).totalDailyCost =
      roundCost (sumDaily (([] : List CostSource).filter (fun x => x.isEnabled)) +
        normalizeToDaily (srcDaily 1).cost (srcDaily 1).billingMode) :=
  append_enabled_source_daily_sum [] (srcDaily 1) now0 rfl

/-- C3: `calculateMonthlyTrend` returns exactly `months` entries; the entry
at position `j` is the calendar month `months - 1 - j` months before the
current one (so the sequence is oldest first and ends at the current month),
and its cost is the rounded sum of `normalizeToMonthly` over exactly the
sources whose active window overlaps that month: `startDate` absent or
≤ the month's last day, and `endDate` absent or ≥ the month's first day. -/
theorem calculateMonthlyTrend_spec (sources : List CostSource) (months : ℕ)
    (now : YM) :
    (calculateMonthlyTrend sources months now).length = months ∧
    ∀ j, j < months →
      (calculateMonthlyTrend sources months now)[j]? =
        some { month := monthKeyStr (absMonth now - (months - 1 - j : ℕ)),
               cost := roundCost (((sources.filter (fun s =>
                   qualifiesB s (monthFirstDay (absMonth now - (months - 1 - j : ℕ)))
                     (monthLastDay (absMonth now - (months - 1 - j : ℕ))))).map
                 (fun s => normalizeToMonthly s.cost s.billingMode)).sum) } := by
  constructor
  · simp [calculateMonthlyTrend]
  · intro j hj
    simp [calculateMonthlyTrend, List.getElem?_map, List.getElem?_range, hj,
      monthEntry, foldl_add_if]

/-- Witness for C3 with an empty source list and a two-month window. -/
theorem calculateMonthlyTrend_spec_witness :
    (calculateMonthlyTrend [] 2 now0).length = 2 ∧
    (calculateMonthlyTrend [] 2 now0)[1]? =
      some { month := monthKeyStr (absMonth now0 - (2 - 1 - 1 : ℕ)),
             cost := roundCost (((([] : List CostSource).filter (fun s =>
                 qualifiesB s (monthFirstDay (absMonth now0 - (2 - 1 - 1 : ℕ)))
                   (monthLastDay (absMonth now0 - (2 - 1 - 1 : ℕ))))).map
               (fun s => normalizeToMonthly s.cost s.billingMode)).sum) } :=
  ⟨(calculateMonthlyTrend_spec [] 2 now0).1,
   (calculateMonthlyTrend_spec [] 2 now0).2 1 (by norm_num)⟩

/-- C6: the success path of `fetchUsage` does set
`totalTokens = inputTokens + outputTokens` for every record, but the fallback
mock path (`getMockUsageData`) hardcodes `totalTokens = 0` while generating
token counts of at least 1000 and 500 — so its records violate the
invariant (first mock record: `inputTokens + outputTokens = 1500 ≠ 0`). -/
theorem mock_usage_violates_totalTokens_invariant :
    (∀ (genIds : ℕ → String) (items : List RawUsageItem),
      ((fetchUsageSuccess genIds items).all
        (fun r => decide (r.totalTokens = r.inputTokens + r.outputTokens))) = true) ∧
    ((getMockUsageData ["2025-01-01"]
        (fun _ _ => { gid := "m1", dIn := 0, dOut := 0, cIn := 0, cOut := 0 })).head?.map
      (fun r => (r.totalTokens, r.inputTokens + r.outputTokens))) = some (0, 1500) ∧
    (0 : ℚ) ≠ 1500 := by
  refine ⟨?_, ?_, by norm_num⟩
  · intro genIds items
    rw [List.all_eq_true]
    intro r hr
    simp only [fetchUsageSuccess, List.mem_map] at hr
    obtain ⟨⟨n, it⟩, _, rfl⟩ := hr
    simp [normalizeUsageItem]
  · norm_num [getMockUsageData, getMockModels, mockUsageRecord]

/-- C7: `calculateAmortizedCost` computes `totalMonths` as the inclusive
whole-calendar-month span (minimum 1, end defaulting to the clock),
`effectiveMonths` as its cap at `maxMonths`, and `monthlyCost` as the rounded
even split; scenario D gives (100.00, 12, 12). -/
theorem calculateAmortizedCost_spec (totalCost : ℚ) (start : CDate)
    (endDate : Option CDate) (months : ℤ) (now : CDate) :
    (calculateAmortizedCost totalCost start endDate months now).totalMonths =
      max 1 (((endDate.getD now).year - start.year) * 12 +
        (((endDate.getD now).month : ℤ) - (start.month : ℤ)) + 1) ∧
    (calculateAmortizedCost totalCost start endDate months now).effectiveMonths =
      min ((calculateAmortizedCost totalCost start endDate months now).totalMonths)
        months ∧
    (calculateAmortizedCost totalCost start endDate months now).monthlyCost =
      roundCost (totalCost /
        ((calculateAmortizedCost totalCost start endDate months now).effectiveMonths : ℚ)) ∧
    calculateAmortizedCost 1200 { year := 2024, month := 1, day := 1 }
        (some { year := 2024, month := 12, day := 31 }) 12 now =
      { monthlyCost := 100, totalMonths := 12, effectiveMonths := 12 } := by
  refine ⟨rfl, rfl, rfl, ?_⟩
  norm_num [calculateAmortizedCost, roundCost, jsRound]

lemma calculateBatchCosts_foldl (pm : String → Option ModelPricing) :
    ∀ (usages : List NormalizedUsage) (a : ℚ) (m : List (String × ℚ)),
      usages.foldl
        (fun (acc : ℚ × List (String × ℚ)) usage =>
          let cost := match pm usage.modelId with
            | some pricing =>
                calculateTokenCost usage.inputTokens usage.outputTokens pricing
            | none => 0
          (acc.1 + cost, upsert usage.modelName cost acc.2)) (a, m) =
      (a + (usages.map (batchContribution pm)).sum,
       usages.foldl (fun mm u => upsert u.modelName (batchContribution pm u) mm) m) := by
  intro usages
  induction usages with
  | nil => intro a m; simp
  | cons u us ih =>
      intro a m
      simp only [List.foldl_cons, List.map_cons, List.sum_cons, ih, batchContribution]
      exact congrArg₂ Prod.mk (by ring) rfl

/-- C8: `calculateBatchCosts` is total; a usage with no pricing entry for its
`modelId` contributes exactly 0 and every other usage contributes its
`calculateTokenCost`, both to the once-rounded total and to its `modelName`
bucket. -/
theorem calculateBatchCosts_spec (usages : List NormalizedUsage)
    (pricingMap : String → Option ModelPricing) :
    (calculateBatchCosts usages pricingMap).1 =
      roundCost ((usages.map (batchContribution pricingMap)).sum) ∧
    ∀ name : String,
      lookupZero name (calculateBatchCosts usages pricingMap).2 =
        ((usages.filter (fun u => u.modelName == name)).map
          (batchContribution pricingMap)).sum := by
  constructor
  · simp [calculateBatchCosts, calculateBatchCosts_foldl]
  · intro name
    simp [calculateBatchCosts, calculateBatchCosts_foldl,
      foldl_upsert_lookupZero, lookupZero]

/-- C9 (counterexample): the duplicate's name is the original name followed
by the marker `" (副本)"`, which does not end with the literal `"(copy)"`
suffix the claim states. -/
theorem duplicateSource_marker_not_copy :
    ((duplicateSource [recA] "a" "b" "t2").map (fun p => p.2.map CostSource.name)) =
      some ["n", "n (副本)"] ∧
    ("n (副本)".endsWith "(copy)") = false := by
  constructor
  · rfl
  · decide

/-- C9 (amended): `duplicateSource` returns `none` exactly when no record has
the id; otherwise it appends one new record carrying the freshly generated id
(uniqueness of which is the id generator's concern), `isEnabled` forced to
`false`, cost, billingMode, currency, provider, type, startDate, endDate and
description copied verbatim, and the original name suffixed with the
duplicate marker `" (副本)"`. -/
theorem duplicateSource_spec (sources : List CostSource) (id newId now : String) :
    (getSourceById sources id = none → duplicateSource sources id newId now = none) ∧
    (∀ src, getSourceById sources id = some src →
      duplicateSource sources id newId now = some (newId, sources ++
        [{ id := newId, name := src.name ++ " (副本)", type := src.type,
           provider := src.provider, billingMode := src.billingMode,
           cost := src.cost, currency := src.currency, startDate := src.startDate,
           endDate := src.endDate, isEnabled := false,
           description := src.description, createdAt := now, updatedAt := now }])) := by
  constructor
  · intro h; simp [duplicateSource, h]
  · intro src h
    simp [duplicateSource, h, addSource, CostSourceData.toSource]

/-- Witness for the amended C9 at a concrete one-record store. -/
theorem duplicateSource_spec_witness :
    duplicateSource [recA] "a" "b" "t2" = some ("b", [recA] ++
      [{ id := "b", name := recA.name ++ " (副本)", type := recA.type,
         provider := recA.provider, billingMode := recA.billingMode,
         cost := recA.cost, currency := recA.currency, startDate := recA.startDate,
         endDate := recA.endDate, isEnabled := false,
         description := recA.description, createdAt := "t2", updatedAt := "t2" }]) :=
  (duplicateSource_spec [recA] "a" "b" "t2").2 recA rfl

/-- C10: the provider buckets and the type buckets of a summary partition the
same multiset of enabled daily-normalized costs, so their value sums agree;
both equal the unrounded daily sum, whose rounding is `totalDailyCost`. -/
theorem costByProvider_costByType_sums (sources : List CostSource) (now : YM) :
    sumValues (calculateSummary sources now).costByProvider =
      sumValues (calculateSummary sources now).costByType ∧
    sumValues (calculateSummary sources now).costByProvider =
      sumDaily (sources.filter (fun s => s.isEnabled)) ∧
    roundCost (sumValues (calculateSummary sources now).costByProvider) =
      (calculateSummary sources now).totalDailyCost := by
  have hfold : ∀ (l : List CostSource),
      l.foldl (fun (m : List (String × ℚ) × List (String × ℚ)) s =>
        (upsert (providerKey s) (dailyCost s) m.1,
         upsert s.type.key (dailyCost s) m.2)) ([], []) =
      (l.foldl (fun m1 s => upsert (providerKey s) (dailyCost s) m1) [],
       l.foldl (fun m2 s => upsert s.type.key (dailyCost s) m2) []) :=
    fun l => foldl_pair (fun m1 s => upsert (providerKey s) (dailyCost s) m1)
      (fun m2 s => upsert s.type.key (dailyCost s) m2) l [] []
  have h1 : (calculateSummary sources now).costByProvider =
      (sources.filter (fun s => s.isEnabled)).foldl
        (fun m1 s => upsert (providerKey s) (dailyCost s) m1) [] := by
    simp [calculateSummary, hfold]
  have h2 : (calculateSummary sources now).costByType =
      (sources.filter (fun s => s.isEnabled)).foldl
        (fun m2 s => upsert s.type.key (dailyCost s) m2) [] := by
    simp [calculateSummary, hfold]
  have hp : sumValues (calculateSummary sources now).costByProvider =
      sumDaily (sources.filter (fun s => s.isEnabled)) := by
    rw [h1, foldl_upsert_sumValues providerKey dailyCost]
    simp [sumValues, sumDaily]
    rfl
  have ht : sumValues (calculateSummary sources now).costByType =
      sumDaily (sources.filter (fun s => s.isEnabled)) := by
    rw [h2, foldl_upsert_sumValues (fun s => s.type.key) dailyCost]
    simp [sumValues, sumDaily]
    rfl
  exact ⟨hp.trans ht.symm, hp, by rw [hp, summary_totalDaily]⟩

end CostTracker
